import Mathlib

/-!
Verification of the searchable select-field component
(`apps/frontend/src/components/customUI/form/SelectField.tsx`).

The component is embedded shallowly:

* `SelectOption` mirrors the `SelectOption` interface.
* `Config` holds the behaviour-relevant props (`options`, `searchable`,
  `disabled`).
* `ControlState` is the internal state triple
  `{ isOpen, searchTerm, focusedIndex }` (the three `useState` hooks).
* `WorldState` adds the externally owned selection and a log of the
  values passed to the `onChange` callback, so that "the callback was
  invoked with v" is observable.
* Each event handler of the source becomes a state-transformer, and
  `step` dispatches a user interaction event to the handler the DOM
  would invoke, with the guards the DOM imposes (a disabled button
  fires no events, option rows exist only while the panel is open and
  only at indices below the filtered list's length, the search input
  exists only while open and searchable).
-/

namespace SelectField

/-- Mirrors the `SelectOption` TypeScript interface: `value`, `label`,
optional `disabled` (absent ⇒ `false`). -/
structure SelectOption where
  value : String
  label : String
  disabled : Bool := false
deriving DecidableEq, Repr

/-- The behaviour-relevant component props. -/
structure Config where
  options : List SelectOption
  searchable : Bool := false
  disabled : Bool := false
deriving DecidableEq, Repr

/-- The internal state triple held in the three `useState` hooks. -/
structure ControlState where
  isOpen : Bool
  searchTerm : String
  focusedIndex : Int
deriving DecidableEq, Repr

/-- Internal control state together with the externally owned selection
(`value` prop, updated by the caller on `onChange`) and the log of
values the `onChange` callback has been invoked with. -/
structure WorldState where
  ctrl : ControlState
  selection : Option String
  changeLog : List String
deriving DecidableEq, Repr

/-- The initial `ControlState`: `useState(false)`, `useState("")`,
`useState(-1)`; also the triple every resetting close path writes. -/
def resetCtrl : ControlState :=
  { isOpen := false, searchTerm := "", focusedIndex := -1 }

/-- Initial world: closed/empty/−1 control state, the caller's initial
`value`, no `onChange` calls yet. -/
def initWorld (value : Option String) : WorldState :=
  { ctrl := resetCtrl, selection := value, changeLog := [] }

/-- JavaScript `s.toLowerCase()`, as the character list of `s` with each
character lowercased. -/
def lowerData (s : String) : List Char :=
  s.data.map Char.toLower

/-- JavaScript `s.includes(sub)`: `sub` occurs as a contiguous substring
of `s`, rendered on the character lists. -/
def jsIncludes (s sub : List Char) : Bool :=
  decide (sub <:+: s)

/-- The filter predicate applied to one option in the `searchable`
branch of `filteredOptions`:
`option.label.toLowerCase().includes(searchTerm.toLowerCase()) && !option.disabled`. -/
def searchPred (searchTerm : String) (o : SelectOption) : Bool :=
  jsIncludes (lowerData o.label) (lowerData searchTerm) && !o.disabled

/-- `filteredOptions` (SelectField.tsx lines 50–56): when `searchable`,
keep the options whose lowercased label contains the lowercased search
term and that are not disabled; otherwise keep the non-disabled
options. -/
def filteredOptions (searchable : Bool) (options : List SelectOption)
    (searchTerm : String) : List SelectOption :=
  if searchable then
    options.filter (searchPred searchTerm)
  else
    options.filter (fun o => !o.disabled)

/-- The filtered list for the current state. -/
def filtered (cfg : Config) (c : ControlState) : List SelectOption :=
  filteredOptions cfg.searchable cfg.options c.searchTerm

/-- `handleSelect` (lines 81–87): no-op on a disabled option; otherwise
invoke `onChange` with the option's value (logged, and the controlled
caller stores it as the new selection), close the panel, clear the
search term and the focused index. -/
def handleSelect (o : SelectOption) (w : WorldState) : WorldState :=
  if o.disabled then w
  else
    { ctrl := resetCtrl,
      selection := some o.value,
      changeLog := w.changeLog ++ [o.value] }

/-- The possible keys of `handleKeyDown`; `other` stands for any key the
handler ignores. -/
inductive Key where
  | arrowDown
  | arrowUp
  | enter
  | escape
  | space
  | other
deriving DecidableEq, Repr

/-- The closed-panel arm of `handleKeyDown`: Enter or Space opens the
panel, touching nothing else; every other key is ignored. -/
def keyDownClosed (k : Key) (w : WorldState) : WorldState :=
  match k with
  | Key.enter => { w with ctrl := { w.ctrl with isOpen := true } }
  | Key.space => { w with ctrl := { w.ctrl with isOpen := true } }
  | _ => w

/-- The open-panel arm of `handleKeyDown`'s `switch`: ArrowDown moves
the focused index to `prev + 1` when `prev < length − 1`, else to `0`;
ArrowUp to `prev − 1` when `prev > 0`, else to `length − 1`; Enter
commits `filteredOptions[focusedIndex]` when `0 ≤ focusedIndex <
length`; Escape closes and resets; other keys are ignored. -/
def keyDownOpen (cfg : Config) (k : Key) (w : WorldState) : WorldState :=
  match k with
  | Key.arrowDown =>
    { w with ctrl := { w.ctrl with focusedIndex :=
        if w.ctrl.focusedIndex < ((filtered cfg w.ctrl).length : Int) - 1 then
          w.ctrl.focusedIndex + 1
        else 0 } }
  | Key.arrowUp =>
    { w with ctrl := { w.ctrl with focusedIndex :=
        if 0 < w.ctrl.focusedIndex then
          w.ctrl.focusedIndex - 1
        else ((filtered cfg w.ctrl).length : Int) - 1 } }
  | Key.enter =>
    if h : 0 ≤ w.ctrl.focusedIndex ∧
        w.ctrl.focusedIndex < ((filtered cfg w.ctrl).length : Int) then
      handleSelect
        ((filtered cfg w.ctrl).get
          ⟨w.ctrl.focusedIndex.toNat, by omega⟩) w
    else w
  | Key.escape => { w with ctrl := resetCtrl }
  | _ => w

/-- `handleKeyDown` (lines 89–123): while closed only Enter/Space act
(opening the panel); while open the `switch` over the key applies. -/
def handleKeyDown (cfg : Config) (k : Key) (w : WorldState) : WorldState :=
  if w.ctrl.isOpen = false then keyDownClosed k w
  else keyDownOpen cfg k w

/-- `handleClickOutside` (lines 58–73): a pointer press outside the
control's subtree closes the panel and resets search term and focused
index, in every state, never touching the selection. -/
def handleClickOutside (w : WorldState) : WorldState :=
  { w with ctrl := resetCtrl }

/-- The Input Surface button's `onClick` (line 137):
`!disabled && setIsOpen(!isOpen)` — toggles `isOpen` only. -/
def handleToggleClick (cfg : Config) (w : WorldState) : WorldState :=
  if cfg.disabled then w
  else { w with ctrl := { w.ctrl with isOpen := !w.ctrl.isOpen } }

/-- Typing in the search input (line 176) replaces `searchTerm`; the
input exists only while the panel is open and `searchable` is set. -/
def handleSearchInput (cfg : Config) (t : String) (w : WorldState) : WorldState :=
  if w.ctrl.isOpen = true ∧ cfg.searchable = true then
    { w with ctrl := { w.ctrl with searchTerm := t } }
  else w

/-- `onMouseEnter` of option row `i` (line 195) sets `focusedIndex := i`;
row `i` exists only while open and `i < filteredOptions.length`. -/
def handleHover (cfg : Config) (i : Nat) (w : WorldState) : WorldState :=
  if w.ctrl.isOpen = true ∧ i < (filtered cfg w.ctrl).length then
    { w with ctrl := { w.ctrl with focusedIndex := (i : Int) } }
  else w

/-- `onClick` of option row `i` (line 194) invokes
`handleSelect(filteredOptions[i])`; the row exists only while open and
at a valid index. -/
def handleClickOption (cfg : Config) (i : Nat) (w : WorldState) : WorldState :=
  if w.ctrl.isOpen = true then
    match (filtered cfg w.ctrl)[i]? with
    | some o => handleSelect o w
    | none => w
  else w

/-- One user interaction. -/
inductive Event where
  | toggleClick
  | keyDown (k : Key)
  | searchInput (t : String)
  | hover (i : Nat)
  | clickOption (i : Nat)
  | outsidePress
deriving DecidableEq, Repr

/-- Dispatch one event. A disabled control's button fires neither click
nor key events; the document-level outside-press listener fires
regardless. -/
def step (cfg : Config) (w : WorldState) : Event → WorldState
  | Event.toggleClick => handleToggleClick cfg w
  | Event.keyDown k => if cfg.disabled then w else handleKeyDown cfg k w
  | Event.searchInput t => handleSearchInput cfg t w
  | Event.hover i => handleHover cfg i w
  | Event.clickOption i => handleClickOption cfg i w
  | Event.outsidePress => handleClickOutside w

/-- Run a sequence of interactions. -/
def run (cfg : Config) (w : WorldState) (es : List Event) : WorldState :=
  es.foldl (step cfg) w

/-- The focused-index invariant claimed by the spec: `focusedIndex` is
`−1` or a valid index into the currently filtered list. -/
def FocusInv (cfg : Config) (w : WorldState) : Prop :=
  w.ctrl.focusedIndex = -1 ∨
    (0 ≤ w.ctrl.focusedIndex ∧
      w.ctrl.focusedIndex < ((filtered cfg w.ctrl).length : Int))

instance (cfg : Config) (w : WorldState) : Decidable (FocusInv cfg w) := by
  unfold FocusInv
  infer_instance

end SelectField

namespace SelectField

/-! ### Helper lemmas -/

theorem mem_filteredOptions_not_disabled {s : Bool} {l : List SelectOption}
    {t : String} {o : SelectOption}
    (h : o ∈ filteredOptions s l t) : o.disabled = false := by
  cases s with
  | false =>
    simp only [filteredOptions, Bool.false_eq_true, if_false, List.mem_filter,
      Bool.not_eq_eq_eq_not, Bool.not_true] at h
    exact h.2
  | true =>
    simp only [filteredOptions, if_true, List.mem_filter, searchPred,
      Bool.and_eq_true, Bool.not_eq_eq_eq_not, Bool.not_true] at h
    exact h.2.2

theorem filtered_ctrl_congr (cfg : Config) (c c' : ControlState)
    (h : c.searchTerm = c'.searchTerm) : filtered cfg c = filtered cfg c' := by
  simp [filtered, h]

end SelectField

namespace SelectField

/-! ### Claim theorems -/

/-- C1: for every option list and search term, membership in the Option
List Panel's visible set (`filteredOptions`) is exactly: the option
comes from the source list, is not disabled, and — when `searchable` is
true — its lowercased label has the lowercased search term as a
contiguous substring. In particular every disabled option is excluded
in every configuration. -/
theorem visible_mem_iff (searchable : Bool) (options : List SelectOption)
    (searchTerm : String) (o : SelectOption) :
    o ∈ filteredOptions searchable options searchTerm ↔
      o ∈ options ∧ o.disabled = false ∧
        (searchable = true → lowerData searchTerm <:+: lowerData o.label) := by
  cases searchable with
  | false =>
    simp [filteredOptions, List.mem_filter]
  | true =>
    simp only [filteredOptions, if_true, List.mem_filter, searchPred,
      jsIncludes, Bool.and_eq_true, decide_eq_true_eq,
      Bool.not_eq_eq_eq_not, Bool.not_true, true_implies]
    tauto

/-- C3 counterexample: in the spec's scenario (options Apple,
Banana[disabled], Cherry; searchable; search term "an") the visible set
is not `[Apple]` — "apple" does not contain the substring "an", so
Apple is filtered out as well. -/
theorem scenario_an_cex :
    filteredOptions true
        [⟨"a", "Apple", false⟩, ⟨"b", "Banana", true⟩, ⟨"c", "Cherry", false⟩]
        "an" ≠ [⟨"a", "Apple", false⟩] := by
  decide

/-- C3 (amended): in that scenario the visible set is empty — Apple and
Cherry do not match "an", and Banana matches but is disabled. -/
theorem scenario_an_empty :
    filteredOptions true
        [⟨"a", "Apple", false⟩, ⟨"b", "Banana", true⟩, ⟨"c", "Cherry", false⟩]
        "an" = [] := by
  decide

/-- C6: invoking the selection commit with a disabled option is a silent
no-op — the whole world state (control state, selection, `onChange`
log) is returned unchanged. -/
theorem select_disabled_noop (w : WorldState) (o : SelectOption)
    (h : o.disabled = true) : handleSelect o w = w := by
  simp [handleSelect, h]

/-- C6 witness: selecting the disabled Banana option from a concrete
open state changes nothing. -/
theorem select_disabled_noop_witness :
    handleSelect ⟨"b", "Banana", true⟩ ⟨⟨true, "an", 1⟩, some "a", ["a"]⟩ =
      ⟨⟨true, "an", 1⟩, some "a", ["a"]⟩ :=
  select_disabled_noop ⟨⟨true, "an", 1⟩, some "a", ["a"]⟩ ⟨"b", "Banana", true⟩ rfl

/-- C9: clicking the Input Surface while the panel is open closes it but
— unlike the selection, Escape and outside-press close paths — leaves
`searchTerm` and `focusedIndex` (and the external selection and the
`onChange` log) untouched. -/
theorem toggle_close_frame (cfg : Config) (w : WorldState)
    (hdis : cfg.disabled = false) (hopen : w.ctrl.isOpen = true) :
    step cfg w Event.toggleClick =
      { w with ctrl := { w.ctrl with isOpen := false } } := by
  simp [step, handleToggleClick, hdis, hopen]

/-- C9 witness: toggle-closing a concrete open state with a non-empty
search term and focused index 2 keeps both. -/
theorem toggle_close_frame_witness :
    step ⟨[⟨"a", "Apple", false⟩], true, false⟩
        ⟨⟨true, "ap", 2⟩, some "a", []⟩ Event.toggleClick =
      ⟨⟨false, "ap", 2⟩, some "a", []⟩ :=
  toggle_close_frame ⟨[⟨"a", "Apple", false⟩], true, false⟩
    ⟨⟨true, "ap", 2⟩, some "a", []⟩ rfl rfl

end SelectField

namespace SelectField

/-- C4: while open over a filtered list with a valid focused index
(`0 ≤ focusedIndex < n`, so in particular `n > 0`), ArrowDown maps the
last index `n − 1` to `0` and every other index to its successor, and
ArrowUp maps `0` to `n − 1` and every other index to its predecessor:
keyboard navigation is cyclic over the filtered set. -/
theorem arrow_nav_cyclic (cfg : Config) (w : WorldState)
    (hdis : cfg.disabled = false) (hopen : w.ctrl.isOpen = true)
    (h0 : 0 ≤ w.ctrl.focusedIndex)
    (hn : w.ctrl.focusedIndex < ((filtered cfg w.ctrl).length : Int)) :
    ((step cfg w (Event.keyDown Key.arrowDown)).ctrl.focusedIndex =
      if w.ctrl.focusedIndex = ((filtered cfg w.ctrl).length : Int) - 1 then 0
      else w.ctrl.focusedIndex + 1) ∧
    ((step cfg w (Event.keyDown Key.arrowUp)).ctrl.focusedIndex =
      if w.ctrl.focusedIndex = 0 then ((filtered cfg w.ctrl).length : Int) - 1
      else w.ctrl.focusedIndex - 1) := by
  have hstep : ∀ k, step cfg w (Event.keyDown k) = keyDownOpen cfg k w := by
    intro k
    simp [step, hdis, handleKeyDown, hopen]
  refine ⟨?_, ?_⟩ <;> rw [hstep] <;> dsimp only [keyDownOpen] <;>
    split_ifs <;> omega

/-- C4 witness: with two visible options and focused index 1 (the last),
ArrowDown wraps to 0 and ArrowUp steps back to 0. -/
theorem arrow_nav_cyclic_witness :
    ((step ⟨[⟨"a", "Apple", false⟩, ⟨"c", "Cherry", false⟩], false, false⟩
        ⟨⟨true, "", 1⟩, none, []⟩ (Event.keyDown Key.arrowDown)).ctrl.focusedIndex =
      if (1 : Int) =
          ((filtered ⟨[⟨"a", "Apple", false⟩, ⟨"c", "Cherry", false⟩], false, false⟩
            ⟨true, "", 1⟩).length : Int) - 1 then 0 else 1 + 1) ∧
    ((step ⟨[⟨"a", "Apple", false⟩, ⟨"c", "Cherry", false⟩], false, false⟩
        ⟨⟨true, "", 1⟩, none, []⟩ (Event.keyDown Key.arrowUp)).ctrl.focusedIndex =
      if (1 : Int) = 0 then
        ((filtered ⟨[⟨"a", "Apple", false⟩, ⟨"c", "Cherry", false⟩], false, false⟩
          ⟨true, "", 1⟩).length : Int) - 1 else 1 - 1) :=
  arrow_nav_cyclic ⟨[⟨"a", "Apple", false⟩, ⟨"c", "Cherry", false⟩], false, false⟩
    ⟨⟨true, "", 1⟩, none, []⟩ rfl rfl (by decide) (by decide)

/-- C7: a pointer press outside the control's bounds forces the control
state to closed/empty/−1 in every current state (open or closed, stale
fields or not, disabled or not), and the Escape key does the same while
the panel is open on a non-disabled control; neither path touches the
external selection or the `onChange` log (no selection is
committed). -/
theorem outside_escape_reset (cfg : Config) (w : WorldState) :
    step cfg w Event.outsidePress = { w with ctrl := resetCtrl } ∧
    (cfg.disabled = false → w.ctrl.isOpen = true →
      step cfg w (Event.keyDown Key.escape) = { w with ctrl := resetCtrl }) := by
  constructor
  · simp [step, handleClickOutside]
  · intro hdis hopen
    simp [step, handleKeyDown, keyDownOpen, hdis, hopen]

/-- C7 witness: from a concrete open state with a search term and a
focused index, Escape yields the reset triple and keeps the selection
and log, and an outside press does the same on a closed state with
stale fields. -/
theorem outside_escape_reset_witness :
    (step ⟨[⟨"a", "Apple", false⟩], true, false⟩
        ⟨⟨true, "ap", 0⟩, some "a", ["a"]⟩ (Event.keyDown Key.escape) =
      ⟨resetCtrl, some "a", ["a"]⟩) ∧
    (step ⟨[⟨"a", "Apple", false⟩], true, true⟩
        ⟨⟨false, "ap", 2⟩, some "a", ["a"]⟩ Event.outsidePress =
      ⟨resetCtrl, some "a", ["a"]⟩) :=
  ⟨(outside_escape_reset ⟨[⟨"a", "Apple", false⟩], true, false⟩
      ⟨⟨true, "ap", 0⟩, some "a", ["a"]⟩).2 rfl rfl,
    (outside_escape_reset ⟨[⟨"a", "Apple", false⟩], true, true⟩
      ⟨⟨false, "ap", 2⟩, some "a", ["a"]⟩).1⟩

/-- C8 counterexample: open the panel, hover the third row (focused
index 2), close by clicking the Input Surface again, then press Enter
on the closed control: the panel opens but `focusedIndex` is 2, not −1
— so "focusedIndex equals −1 regardless of the interaction history" is
false. -/
theorem enter_open_history_cex :
    ((run ⟨[⟨"a", "Apple", false⟩, ⟨"b", "Banana", false⟩, ⟨"c", "Cherry", false⟩],
        false, false⟩ (initWorld none)
        [Event.toggleClick, Event.hover 2, Event.toggleClick]).ctrl.isOpen = false) ∧
    ((run ⟨[⟨"a", "Apple", false⟩, ⟨"b", "Banana", false⟩, ⟨"c", "Cherry", false⟩],
        false, false⟩ (initWorld none)
        [Event.toggleClick, Event.hover 2, Event.toggleClick,
          Event.keyDown Key.enter]).ctrl =
      ⟨true, "", 2⟩) := by
  decide

/-- C8 (amended): Enter on a closed, non-disabled control opens the
panel and leaves `searchTerm` and `focusedIndex` unchanged; hence the
resulting `focusedIndex` is −1 exactly when it already was −1 while
closed (as after any resetting close path), but not after a
toggle-click close that left it set. -/
theorem enter_opens_preserving_state (cfg : Config) (w : WorldState)
    (hdis : cfg.disabled = false) (hclosed : w.ctrl.isOpen = false) :
    (step cfg w (Event.keyDown Key.enter)).ctrl =
      { w.ctrl with isOpen := true } := by
  simp [step, handleKeyDown, keyDownClosed, hdis, hclosed]

/-- C8 witness: Enter on the initial closed state opens the panel with
`focusedIndex` still −1. -/
theorem enter_opens_preserving_state_witness :
    (step ⟨[⟨"a", "Apple", false⟩], false, false⟩ (initWorld none)
        (Event.keyDown Key.enter)).ctrl = ⟨true, "", -1⟩ :=
  enter_opens_preserving_state ⟨[⟨"a", "Apple", false⟩], false, false⟩
    (initWorld none) rfl rfl

/-- C10: while open with no focused row (`focusedIndex = −1`): on a
non-empty filtered list ArrowDown focuses index 0 and ArrowUp focuses
the last index `n − 1`; on an empty filtered list ArrowDown sets
`focusedIndex` to 0 while ArrowUp leaves it at −1. -/
theorem arrow_from_none (cfg : Config) (w : WorldState)
    (hdis : cfg.disabled = false) (hopen : w.ctrl.isOpen = true)
    (hfi : w.ctrl.focusedIndex = -1) :
    ((filtered cfg w.ctrl).length ≠ 0 →
      (step cfg w (Event.keyDown Key.arrowDown)).ctrl.focusedIndex = 0 ∧
      (step cfg w (Event.keyDown Key.arrowUp)).ctrl.focusedIndex =
        ((filtered cfg w.ctrl).length : Int) - 1) ∧
    ((filtered cfg w.ctrl).length = 0 →
      (step cfg w (Event.keyDown Key.arrowDown)).ctrl.focusedIndex = 0 ∧
      (step cfg w (Event.keyDown Key.arrowUp)).ctrl.focusedIndex = -1) := by
  have hstep : ∀ k, step cfg w (Event.keyDown k) = keyDownOpen cfg k w := by
    intro k
    simp [step, hdis, handleKeyDown, hopen]
  refine ⟨fun hlen => ⟨?_, ?_⟩, fun hlen => ⟨?_, ?_⟩⟩ <;>
    rw [hstep] <;> dsimp only [keyDownOpen] <;> split_ifs <;> omega

/-- C10 witness: on a concrete open state with one visible option and
`focusedIndex = −1`, ArrowDown focuses 0 and ArrowUp focuses the last
index 0. -/
theorem arrow_from_none_witness :
    (step ⟨[⟨"a", "Apple", false⟩], false, false⟩ ⟨⟨true, "", -1⟩, none, []⟩
        (Event.keyDown Key.arrowDown)).ctrl.focusedIndex = 0 ∧
    (step ⟨[⟨"a", "Apple", false⟩], false, false⟩ ⟨⟨true, "", -1⟩, none, []⟩
        (Event.keyDown Key.arrowUp)).ctrl.focusedIndex =
      ((filtered ⟨[⟨"a", "Apple", false⟩], false, false⟩
        ⟨true, "", -1⟩).length : Int) - 1 :=
  (arrow_from_none ⟨[⟨"a", "Apple", false⟩], false, false⟩
    ⟨⟨true, "", -1⟩, none, []⟩ rfl rfl rfl).1 (by decide)

end SelectField

namespace SelectField

/-- C2 counterexample: with an empty option list, open the panel with
Enter and press ArrowDown — `focusedIndex` becomes 0, which is neither
−1 nor a valid index into the (empty) filtered list, so the claimed
invariant is not preserved by every interaction sequence. -/
theorem focusInv_cex :
    ¬ FocusInv ⟨[], false, false⟩
      (run ⟨[], false, false⟩ (initWorld none)
        [Event.keyDown Key.enter, Event.keyDown Key.arrowDown]) := by
  decide

/-- C2 (amended): `focusedIndex` being −1 or a valid index into the
currently filtered list is preserved by every interaction except
ArrowDown/ArrowUp pressed while the filtered list is empty and search
edits that shrink the filtered list to at most the focused index (the
code re-validates the index in neither case; ArrowDown on an empty list
sets it to 0). -/
theorem focusInv_preserved (cfg : Config) (w : WorldState) (e : Event)
    (hInv : FocusInv cfg w)
    (hArrow : ∀ k, e = Event.keyDown k →
      (k = Key.arrowDown ∨ k = Key.arrowUp) →
      w.ctrl.isOpen = true → (filtered cfg w.ctrl).length ≠ 0)
    (hSearch : ∀ t, e = Event.searchInput t →
      w.ctrl.focusedIndex = -1 ∨
        w.ctrl.focusedIndex <
          ((filteredOptions cfg.searchable cfg.options t).length : Int)) :
    FocusInv cfg (step cfg w e) := by
  cases e with
  | toggleClick =>
    simp only [step, handleToggleClick]
    split
    · exact hInv
    · simpa [FocusInv, filtered] using hInv
  | keyDown k =>
    by_cases hd : cfg.disabled = true
    · simpa [step, hd] using hInv
    · have hd' : cfg.disabled = false := by simpa using hd
      by_cases ho : w.ctrl.isOpen = true
      · have hstep : step cfg w (Event.keyDown k) = keyDownOpen cfg k w := by
          simp [step, hd', handleKeyDown, ho]
        rw [hstep]
        cases k with
        | arrowDown =>
          have hn := hArrow _ rfl (Or.inl rfl) ho
          dsimp only [keyDownOpen]
          simp only [FocusInv, filtered] at hInv hn ⊢
          split_ifs <;> omega
        | arrowUp =>
          have hn := hArrow _ rfl (Or.inr rfl) ho
          dsimp only [keyDownOpen]
          simp only [FocusInv, filtered] at hInv hn ⊢
          split_ifs <;> omega
        | enter =>
          dsimp only [keyDownOpen]
          split
          · unfold handleSelect
            split
            · exact hInv
            · simp [FocusInv, resetCtrl]
          · exact hInv
        | escape =>
          dsimp only [keyDownOpen]
          simp [FocusInv, resetCtrl]
        | space => exact hInv
        | other => exact hInv
      · have ho' : w.ctrl.isOpen = false := by simpa using ho
        have hstep : step cfg w (Event.keyDown k) = keyDownClosed k w := by
          simp [step, hd', handleKeyDown, ho']
        rw [hstep]
        cases k <;> dsimp only [keyDownClosed] <;>
          simpa [FocusInv, filtered] using hInv
  | searchInput t =>
    have hs := hSearch t rfl
    simp only [step, handleSearchInput]
    split
    · simp only [FocusInv, filtered] at hInv hs ⊢
      rcases hInv with h | h
      · exact Or.inl h
      · rcases hs with h' | h'
        · exact Or.inl h'
        · exact Or.inr ⟨h.1, h'⟩
    · exact hInv
  | hover i =>
    simp only [step, handleHover]
    split
    · rename_i h
      simp only [filtered] at h
      simp only [FocusInv, filtered]
      refine Or.inr ⟨by omega, ?_⟩
      exact_mod_cast h.2
    · exact hInv
  | clickOption i =>
    simp only [step, handleClickOption]
    split
    · split
      · unfold handleSelect
        split
        · exact hInv
        · simp [FocusInv, resetCtrl]
      · exact hInv
    · exact hInv
  | outsidePress =>
    simp [step, handleClickOutside, FocusInv, resetCtrl]

/-- C2 witness: ArrowDown over a non-empty filtered list from the
focus-free open state keeps the invariant. -/
theorem focusInv_preserved_witness :
    FocusInv ⟨[⟨"a", "Apple", false⟩], false, false⟩
      (step ⟨[⟨"a", "Apple", false⟩], false, false⟩
        ⟨⟨true, "", -1⟩, none, []⟩ (Event.keyDown Key.arrowDown)) :=
  focusInv_preserved ⟨[⟨"a", "Apple", false⟩], false, false⟩
    ⟨⟨true, "", -1⟩, none, []⟩ (Event.keyDown Key.arrowDown)
    (by decide)
    (by intro k hk hor hopen; cases hk; decide)
    (by intro t ht; cases ht)

end SelectField

namespace SelectField

theorem step_select_or_frame (cfg : Config) (w : WorldState) (e : Event) :
    ((step cfg w e).selection = w.selection ∧
      (step cfg w e).changeLog = w.changeLog) ∨
    ∃ o, o.disabled = false ∧ o ∈ filtered cfg w.ctrl ∧
      step cfg w e = handleSelect o w := by
  cases e with
  | toggleClick =>
    left
    simp only [step, handleToggleClick]
    split <;> simp
  | keyDown k =>
    by_cases hd : cfg.disabled = true
    · left; simp [step, hd]
    · have hd' : cfg.disabled = false := by simpa using hd
      by_cases ho : w.ctrl.isOpen = true
      · have hstep : step cfg w (Event.keyDown k) = keyDownOpen cfg k w := by
          simp [step, hd', handleKeyDown, ho]
        rw [hstep]
        cases k with
        | enter =>
          dsimp only [keyDownOpen]
          split
          · rename_i h
            right
            refine ⟨(filtered cfg w.ctrl).get
                ⟨w.ctrl.focusedIndex.toNat, by omega⟩,
              mem_filteredOptions_not_disabled (List.get_mem _ _ _),
              List.get_mem _ _ _, rfl⟩
          · left; simp
        | arrowDown => left; dsimp only [keyDownOpen]; simp
        | arrowUp => left; dsimp only [keyDownOpen]; simp
        | escape => left; dsimp only [keyDownOpen]; simp
        | space => left; exact ⟨rfl, rfl⟩
        | other => left; exact ⟨rfl, rfl⟩
      · have ho' : w.ctrl.isOpen = false := by simpa using ho
        have hstep : step cfg w (Event.keyDown k) = keyDownClosed k w := by
          simp [step, hd', handleKeyDown, ho']
        rw [hstep]
        left
        cases k <;> dsimp only [keyDownClosed] <;> simp
  | searchInput t =>
    left
    simp only [step, handleSearchInput]
    split <;> simp
  | hover i =>
    left
    simp only [step, handleHover]
    split <;> simp
  | clickOption i =>
    simp only [step, handleClickOption]
    split
    · split
      · rename_i o hsome
        right
        exact ⟨o, mem_filteredOptions_not_disabled (List.getElem?_mem hsome),
          List.getElem?_mem hsome, rfl⟩
      · left; simp
    · left; simp
  | outsidePress =>
    left
    simp [step, handleClickOutside]

/-- C5: (1) committing a non-disabled option invokes the `onChange`
callback with exactly that option's value and resets the control state
to closed/empty/−1; (2) whenever any interaction changes the external
selection or the `onChange` log, it did so through exactly such a
commit of some non-disabled option of the currently filtered list —
there is no other path to the external selection. -/
theorem select_commit_spec (cfg : Config) (w : WorldState) (e : Event)
    (o : SelectOption) :
    (o.disabled = false →
      handleSelect o w =
        ⟨resetCtrl, some o.value, w.changeLog ++ [o.value]⟩) ∧
    ((step cfg w e).selection ≠ w.selection ∨
        (step cfg w e).changeLog ≠ w.changeLog →
      ∃ o', o'.disabled = false ∧ o' ∈ filtered cfg w.ctrl ∧
        step cfg w e = handleSelect o' w ∧
        (step cfg w e).ctrl = resetCtrl ∧
        (step cfg w e).selection = some o'.value ∧
        (step cfg w e).changeLog = w.changeLog ++ [o'.value]) := by
  constructor
  · intro h
    simp [handleSelect, h]
  · intro hch
    rcases step_select_or_frame cfg w e with ⟨h1, h2⟩ | ⟨o', hdis, hmem, hEq⟩
    · rcases hch with hc | hc
      · exact absurd h1 hc
      · exact absurd h2 hc
    · refine ⟨o', hdis, hmem, hEq, ?_, ?_, ?_⟩ <;>
        rw [hEq] <;> simp [handleSelect, hdis]

/-- C5 witness: committing the non-disabled Apple option from the
initial world invokes `onChange` with "a" and resets the control
state. -/
theorem select_commit_spec_witness :
    handleSelect ⟨"a", "Apple", false⟩ (initWorld none) =
      ⟨resetCtrl, some "a", ["a"]⟩ :=
  (select_commit_spec ⟨[], false, false⟩ (initWorld none) Event.outsidePress
    ⟨"a", "Apple", false⟩).1 rfl

end SelectField
